import Mathlib

/-!
Verification of the 2048-royale WebSocket relay server (`server/main.go`).

The server is a pairing-and-relay layer: rooms of at most two players,
keyed by a short random code in a global registry, with per-connection
handlers that dispatch inbound messages by their `type` string.

The Go heap is modelled by keying rooms with their registry code: a
handler's `currentRoom` pointer becomes an `Option String` holding the
room's code, and every mutation of a room is re-insertion into the
registry under that code.  Message sends become an output list of
(recipient player id, message) pairs.
-/

namespace Royale

/-- A 4x4 integer grid travels opaquely through the relay (`[4][4]int` in Go);
the server never inspects it, so it is modelled as a list of rows. -/
abbrev Grid := List (List Int)

/-- `Player` from main.go: random string ID plus game fields the server
stores but never updates.  The websocket connection is identified by the
player's id in the output lists. -/
structure Player where
  id : String
  grid : Grid := []
  score : Int := 0
  lost : Bool := false
  won : Bool := false
deriving DecidableEq

/-- The wire envelope `Message` from main.go; absent optional fields take
Go zero values (empty string, nil pointer = `none`, 0). -/
structure Message where
  type : String := ""
  room : String := ""
  direction : String := ""
  playerId : String := ""
  grid : Option Grid := none
  score : Int := 0
  winner : String := ""
  message : String := ""
deriving DecidableEq

/-- `Room` from main.go: code, ordered player list, started flag. -/
structure Room where
  code : String
  players : List Player := []
  started : Bool := false
deriving DecidableEq

/-- The global `rooms` map, modelled as an association list from code to
room; `lookupRoom` finds the first binding. -/
abbrev Registry := List (String × Room)

def lookupRoom (R : Registry) (code : String) : Option Room :=
  (R.find? (fun pr => pr.1 == code)).map (fun pr => pr.2)

/-- `rooms[code] = room`: replace any existing binding for `code`. -/
def insertRoom (R : Registry) (code : String) (room : Room) : Registry :=
  (code, room) :: R.filter (fun pr => pr.1 != code)

/-- `removeRoom` from main.go: `delete(rooms, code)`. -/
def removeRoom (R : Registry) (code : String) : Registry :=
  R.filter (fun pr => pr.1 != code)

/-- The restricted room-code alphabet from `generateRoomCode`. -/
def roomCodeChars : List Char := "ABCDEFGHJKLMNPQRSTUVWXYZ23456789".toList

/-- `generateRoomCode` from main.go: five characters, each
`chars[rand.Intn(len(chars))]`.  The random source is a function giving
the value of each of the five draws; `% len` models `Intn`'s range. -/
def generateRoomCode (rand : Nat → Nat) : String :=
  String.mk ((List.range 5).map (fun i => roomCodeChars.getD (rand i % roomCodeChars.length) 'A'))

/-- The retry loop of `createRoom`, over the stream of generated
candidate codes: skip candidates already present, insert an empty room
under the first fresh one.  `none` models the (probability-zero)
divergence when every candidate collides. -/
def createRoomAux (R : Registry) : List String → Option (Room × Registry)
  | [] => none
  | code :: rest =>
      if (lookupRoom R code).isSome then
        createRoomAux R rest
      else
        let room : Room := { code := code }
        some (room, insertRoom R code room)

/-- `createRoom` from main.go, fed by a list of random sources, one per
loop iteration. -/
def createRoom (rands : List (Nat → Nat)) (R : Registry) : Option (Room × Registry) :=
  createRoomAux R (rands.map generateRoomCode)

/-- The join-code normalization `strings.ToUpper(strings.TrimSpace(r))`
from main.go, modelled structurally over the character list (whitespace
trim on both ends, then ASCII uppercasing) so that it evaluates by kernel
reduction. -/
def normalizeCode (s : String) : String :=
  String.mk ((((s.toList.dropWhile Char.isWhitespace).reverse.dropWhile
    Char.isWhitespace).reverse).map Char.toUpper)

/-- The relay loop used by the `move` and `state_update` cases:
`for p in players { if p.ID != player.ID { sendJSON(p.Conn, m) } }`. -/
def relayToOthers (players : List Player) (senderId : String) (m : Message) :
    List (String × Message) :=
  (players.filter (fun p => p.id != senderId)).map (fun p => (p.id, m))

/-- The broadcast loop used by the `game_won` case (and the `game_start`
announcement): `for p in players { sendJSON(p.Conn, m) }`. -/
def broadcastAll (players : List Player) (m : Message) : List (String × Message) :=
  players.map (fun p => (p.id, m))

/-- Per-connection handler state: its player and the `currentRoom`
pointer, as the code of the registry room it aliases. -/
structure Handler where
  player : Player
  currentRoom : Option String := none
deriving DecidableEq

/-- Result of one dispatch step: updated registry, updated handler state,
and the messages written to sockets, as (recipient id, message) pairs in
send order. -/
structure StepResult where
  rooms : Registry
  handler : Handler
  sent : List (String × Message)
deriving DecidableEq

/-- The `switch msg.Type` dispatch of `handleWS`, one inbound message.
`rands` feeds `createRoom`'s code generation; `none` only when `create`
would loop forever on colliding codes. -/
def handleMessage (rands : List (Nat → Nat)) (rooms : Registry) (h : Handler)
    (msg : Message) : Option StepResult :=
  if msg.type = "create" then
    match createRoom rands rooms with
    | none => none
    | some (room, r1) =>
        let room1 : Room := { room with players := room.players ++ [h.player] }
        some { rooms := insertRoom r1 room.code room1,
               handler := { h with currentRoom := some room.code },
               sent := [(h.player.id,
                 { type := "room_created", room := room.code, playerId := h.player.id })] }
  else if msg.type = "join" then
    let code := normalizeCode msg.room
    match lookupRoom rooms code with
    | none =>
        some { rooms := rooms, handler := h,
               sent := [(h.player.id, { type := "error", message := "Room introuvable" })] }
    | some room =>
        if 2 ≤ room.players.length then
          some { rooms := rooms, handler := h,
                 sent := [(h.player.id, { type := "error", message := "Room pleine" })] }
        else if room.started then
          some { rooms := rooms, handler := h,
                 sent := [(h.player.id, { type := "error", message := "Partie déjà en cours" })] }
        else
          let room1 : Room := { room with players := room.players ++ [h.player] }
          if room1.players.length = 2 then
            let room2 : Room := { room1 with started := true }
            some { rooms := insertRoom rooms code room2,
                   handler := { h with currentRoom := some code },
                   sent := (h.player.id,
                       { type := "room_joined", room := room.code, playerId := h.player.id }) ::
                     broadcastAll room2.players { type := "game_start", room := room.code } }
          else
            some { rooms := insertRoom rooms code room1,
                   handler := { h with currentRoom := some code },
                   sent := [(h.player.id,
                     { type := "room_joined", room := room.code, playerId := h.player.id })] }
  else if msg.type = "move" then
    match h.currentRoom with
    | none => some { rooms := rooms, handler := h, sent := [] }
    | some c =>
        match lookupRoom rooms c with
        | none => some { rooms := rooms, handler := h, sent := [] }
        | some room =>
            some { rooms := rooms, handler := h,
                   sent := relayToOthers room.players h.player.id
                     { type := "opponent_move", direction := msg.direction,
                       playerId := h.player.id } }
  else if msg.type = "state_update" then
    match h.currentRoom with
    | none => some { rooms := rooms, handler := h, sent := [] }
    | some c =>
        match lookupRoom rooms c with
        | none => some { rooms := rooms, handler := h, sent := [] }
        | some room =>
            some { rooms := rooms, handler := h,
                   sent := relayToOthers room.players h.player.id
                     { type := "opponent_state", grid := msg.grid, score := msg.score } }
  else if msg.type = "game_won" then
    match h.currentRoom with
    | none => some { rooms := rooms, handler := h, sent := [] }
    | some c =>
        match lookupRoom rooms c with
        | none => some { rooms := rooms, handler := h, sent := [] }
        | some room =>
            some { rooms := rooms, handler := h,
                   sent := broadcastAll room.players { type := "game_over", winner := h.player.id } }
  else
    some { rooms := rooms, handler := h, sent := [] }

/-- `handleDisconnect` from main.go: notify every other player, filter the
departing player out of the list, and when the room empties delete it
from the registry (the `go removeRoom` is modelled synchronously). -/
def handleDisconnect (rooms : Registry) (room : Room) (player : Player) :
    Registry × List (String × Message) :=
  let sent := (room.players.filter (fun p => p.id != player.id)).map
      (fun p => (p.id, ({ type := "error", message := "L'adversaire s'est déconnecté" } : Message)))
  let remaining := room.players.filter (fun p => p.id != player.id)
  if remaining.length = 0 then
    (removeRoom rooms room.code, sent)
  else
    (insertRoom rooms room.code { room with players := remaining }, sent)

/-- External events driving the system of concurrent connection handlers
(interleaved, one critical section at a time): a new connection, one
inbound message processed by handler `hid`, or a read failure ending
handler `hid`'s loop (`handleDisconnect` against its current room). -/
inductive Event where
  | connect (p : Player)
  | recv (hid : Nat) (rands : List (Nat → Nat)) (msg : Message)
  | disconnect (hid : Nat)

/-- Whole-server state: the `rooms` registry and the live handlers
(`none` marks a handler whose loop has returned). -/
structure SysState where
  rooms : Registry
  handlers : List (Option Handler)
deriving DecidableEq

/-- One interleaving step of the system. `none` only when a `create`
would loop forever on colliding codes. -/
def sysStep (s : SysState) (e : Event) : Option SysState :=
  match e with
  | .connect p =>
      some { s with handlers := s.handlers ++ [some { player := p }] }
  | .recv hid rands msg =>
      match s.handlers.get? hid with
      | none => some s
      | some none => some s
      | some (some h) =>
          match handleMessage rands s.rooms h msg with
          | none => none
          | some r => some { rooms := r.rooms, handlers := s.handlers.set hid (some r.handler) }
  | .disconnect hid =>
      match s.handlers.get? hid with
      | none => some s
      | some none => some s
      | some (some h) =>
          match h.currentRoom with
          | none => some { s with handlers := s.handlers.set hid none }
          | some c =>
              match lookupRoom s.rooms c with
              | none => some { s with handlers := s.handlers.set hid none }
              | some room =>
                  some { rooms := (handleDisconnect s.rooms room h.player).1,
                         handlers := s.handlers.set hid none }

/-- Run a sequence of events from a state. -/
def sysSteps (s : SysState) : List Event → Option SysState
  | [] => some s
  | e :: rest =>
      match sysStep s e with
      | none => none
      | some s1 => sysSteps s1 rest

/-- Server start state: empty registry, no connections. -/
def initState : SysState := { rooms := [], handlers := [] }

/-- Concrete fixture: player with a generated-looking id, used to
instantiate theorems at concrete states. -/
def pa : Player := { id := "aaaaaaaa" }

/-- Concrete fixture: a second, distinct player. -/
def pb : Player := { id := "bbbbbbbb" }

/-- Concrete fixture: a started two-player room. -/
def roomX : Room := { code := "ROOMX", players := [pa, pb], started := true }

/-- Concrete fixture: a registry holding just `roomX`. -/
def regX : Registry := [("ROOMX", roomX)]

/-- Concrete fixture: `pa`'s connection handler, inside `roomX`. -/
def handlerA : Handler := { player := pa, currentRoom := some "ROOMX" }

/-- Concrete fixture: a handler for `pa` with no current room. -/
def handlerA0 : Handler := { player := pa }

/-- Concrete fixture: `pb`'s connection handler, inside `roomX`. -/
def handlerB : Handler := { player := pb, currentRoom := some "ROOMX" }

/-- Concrete fixture: a 4x4 grid snapshot. -/
def gridX : Grid := [[2, 0, 0, 0], [0, 4, 0, 0], [0, 0, 8, 0], [0, 0, 0, 16]]

/-- Concrete fixture: a waiting room holding only `pb`. -/
def roomW : Room := { code := "ROOMW", players := [pb] }

/-- Concrete fixture: a registry holding just the waiting room. -/
def regW : Registry := [("ROOMW", roomW)]

/-- Concrete fixture: a four-event trace — two connections, a `create` by
handler 0, and a `join` by handler 1 that starts the game. -/
def evsX : List Event :=
  [Event.connect pa, Event.connect pb,
   Event.recv 0 [fun _ => 0] { type := "create" },
   Event.recv 1 [] { type := "join", room := "AAAAA" }]

/-- Concrete fixture: the state reached by running `evsX` from the start
state. -/
def sX : SysState :=
  { rooms := [("AAAAA", { code := "AAAAA", players := [pa, pb], started := true })],
    handlers := [some { player := pa, currentRoom := some "AAAAA" },
                 some { player := pb, currentRoom := some "AAAAA" }] }

/-- Every room in the registry holds at most two players. -/
def RoomsBounded (R : Registry) : Prop :=
  ∀ pr ∈ R, (Prod.snd pr).players.length ≤ 2

/-- Every registry binding stores a room whose `code` field is its key
(true of the Go map, where rooms are only ever inserted at their code). -/
def CodesConsistent (R : Registry) : Prop :=
  ∀ pr ∈ R, (Prod.snd pr).code = Prod.fst pr

section RegistryLemmas

theorem lookupRoom_mem {R : Registry} {c : String} {r : Room}
    (h : lookupRoom R c = some r) : (c, r) ∈ R := by
  unfold lookupRoom at h
  cases hf : R.find? (fun pr => pr.1 == c) with
  | none => simp [hf] at h
  | some pr =>
      have hm := List.mem_of_find?_eq_some hf
      have hp := List.find?_some hf
      simp [hf] at h
      have : pr.1 = c := by simpa using hp
      cases pr with
      | mk a b => subst h; simp at this; subst this; exact hm

theorem lookupRoom_cons_ne {pr : String × Room} {rest : Registry} {c' : String}
    (h : pr.1 ≠ c') : lookupRoom (pr :: rest) c' = lookupRoom rest c' := by
  unfold lookupRoom
  rw [List.find?_cons_of_neg _ (by simpa using h)]

theorem lookupRoom_cons_self {pr : String × Room} {rest : Registry} :
    lookupRoom (pr :: rest) pr.1 = some pr.2 := by
  unfold lookupRoom
  rw [List.find?_cons_of_pos _ (by simp)]
  rfl

theorem lookupRoom_filter_ne {R : Registry} {c c' : String} (hne : c' ≠ c) :
    lookupRoom (R.filter (fun pr => pr.1 != c)) c' = lookupRoom R c' := by
  induction R with
  | nil => rfl
  | cons pr rest ih =>
      rcases eq_or_ne pr.1 c with h1 | h1
      · rw [List.filter_cons_of_neg (by simp [h1])]
        rw [ih, lookupRoom_cons_ne (fun hc => hne (by rw [← hc, h1]))]
      · rw [List.filter_cons_of_pos (by simp [h1])]
        rcases eq_or_ne pr.1 c' with h2 | h2
        · rw [← h2, lookupRoom_cons_self, lookupRoom_cons_self]
        · rw [lookupRoom_cons_ne h2, lookupRoom_cons_ne h2, ih]

theorem lookupRoom_insert_self (R : Registry) (c : String) (r : Room) :
    lookupRoom (insertRoom R c r) c = some r := by
  simp [lookupRoom, insertRoom, List.find?_cons]

theorem lookupRoom_insert_ne (R : Registry) {c c' : String} (r : Room) (hne : c' ≠ c) :
    lookupRoom (insertRoom R c r) c' = lookupRoom R c' := by
  have h2 : (c == c') = false := by
    simp only [beq_eq_false_iff_ne, ne_eq]; exact fun hc => hne hc.symm
  simp only [lookupRoom, insertRoom, List.find?_cons, h2]
  exact lookupRoom_filter_ne hne

theorem lookupRoom_remove_self (R : Registry) (c : String) :
    lookupRoom (removeRoom R c) c = none := by
  unfold removeRoom
  induction R with
  | nil => rfl
  | cons pr rest ih =>
      by_cases h1 : pr.1 = c
      · have : (pr.1 != c) = false := by simp [h1]
        simpa [List.filter_cons, this] using ih
      · rw [List.filter_cons_of_pos (by simp [h1]), lookupRoom_cons_ne h1]
        exact ih

theorem lookupRoom_remove_ne (R : Registry) {c c' : String} (hne : c' ≠ c) :
    lookupRoom (removeRoom R c) c' = lookupRoom R c' :=
  lookupRoom_filter_ne hne

theorem mem_insertRoom {R : Registry} {c : String} {r : Room} {pr : String × Room}
    (h : pr ∈ insertRoom R c r) : pr = (c, r) ∨ pr ∈ R := by
  unfold insertRoom at h
  rcases List.mem_cons.mp h with h | h
  · exact Or.inl h
  · exact Or.inr (List.mem_of_mem_filter h)

theorem roomsBounded_insert {R : Registry} {c : String} {r : Room}
    (hR : RoomsBounded R) (hr : r.players.length ≤ 2) :
    RoomsBounded (insertRoom R c r) := by
  intro pr hpr
  rcases mem_insertRoom hpr with h | h
  · subst h; exact hr
  · exact hR pr h

theorem roomsBounded_remove {R : Registry} {c : String}
    (hR : RoomsBounded R) : RoomsBounded (removeRoom R c) := by
  intro pr hpr
  exact hR pr (List.mem_of_mem_filter hpr)

theorem codesConsistent_insert {R : Registry} {c : String} {r : Room}
    (hR : CodesConsistent R) (hr : r.code = c) :
    CodesConsistent (insertRoom R c r) := by
  intro pr hpr
  rcases mem_insertRoom hpr with h | h
  · subst h; exact hr
  · exact hR pr h

theorem codesConsistent_remove {R : Registry} {c : String}
    (hR : CodesConsistent R) : CodesConsistent (removeRoom R c) := by
  intro pr hpr
  exact hR pr (List.mem_of_mem_filter hpr)

theorem codesConsistent_lookup {R : Registry} {c : String} {r : Room}
    (hR : CodesConsistent R) (h : lookupRoom R c = some r) : r.code = c :=
  hR (c, r) (lookupRoom_mem h)

end RegistryLemmas

section CreateLemmas

theorem getD_mem_of_default_mem {l : List Char} {d : Char} (hd : d ∈ l) (n : Nat) :
    l.getD n d ∈ l := by
  rw [List.getD_eq_getElem?_getD]
  cases h : l[n]? with
  | none => simpa [h]
  | some x =>
      have := List.getElem?_mem h
      simpa [h]

theorem generateRoomCode_length (rand : Nat → Nat) :
    (generateRoomCode rand).length = 5 := by
  simp [generateRoomCode, String.length]

theorem generateRoomCode_chars (rand : Nat → Nat) :
    ∀ ch ∈ (generateRoomCode rand).toList, ch ∈ roomCodeChars := by
  intro ch hch
  simp only [generateRoomCode, String.toList, String.mk, List.mem_map] at hch
  obtain ⟨i, _, hi⟩ := hch
  rw [← hi]
  exact getD_mem_of_default_mem (by decide) _

theorem createRoomAux_spec {R : Registry} {cands : List String} {room : Room} {R' : Registry}
    (h : createRoomAux R cands = some (room, R')) :
    room.code ∈ cands ∧ room.players = [] ∧ room.started = false ∧
      lookupRoom R room.code = none ∧ R' = insertRoom R room.code room := by
  induction cands with
  | nil => simp [createRoomAux] at h
  | cons cand rest ih =>
      unfold createRoomAux at h
      by_cases hx : (lookupRoom R cand).isSome
      · rw [if_pos hx] at h
        obtain ⟨h1, h2, h3, h4, h5⟩ := ih h
        exact ⟨List.mem_cons_of_mem _ h1, h2, h3, h4, h5⟩
      · rw [if_neg hx] at h
        cases h
        refine ⟨List.mem_cons_self _ _, rfl, rfl, ?_, rfl⟩
        exact Option.not_isSome_iff_eq_none.mp hx

theorem createRoom_spec {rands : List (Nat → Nat)} {R : Registry} {room : Room} {R' : Registry}
    (h : createRoom rands R = some (room, R')) :
    room.code.length = 5 ∧ (∀ ch ∈ room.code.toList, ch ∈ roomCodeChars) ∧
      room.players = [] ∧ room.started = false ∧
      lookupRoom R room.code = none ∧ R' = insertRoom R room.code room := by
  obtain ⟨h1, h2, h3, h4, h5⟩ := createRoomAux_spec h
  obtain ⟨rand, _, hr⟩ := List.mem_map.mp h1
  refine ⟨?_, ?_, h2, h3, h4, h5⟩
  · rw [← hr]; exact generateRoomCode_length rand
  · rw [← hr]; exact generateRoomCode_chars rand

end CreateLemmas

section DispatchLemmas

theorem handleMessage_move_eq (rands : List (Nat → Nat)) (rooms : Registry) (hh : Handler)
    (msg : Message) {c : String} {room : Room} (hty : msg.type = "move")
    (hcr : hh.currentRoom = some c) (hlr : lookupRoom rooms c = some room) :
    handleMessage rands rooms hh msg =
      some { rooms := rooms, handler := hh,
             sent := relayToOthers room.players hh.player.id
               { type := "opponent_move", direction := msg.direction,
                 playerId := hh.player.id } } := by
  unfold handleMessage
  rw [hty]
  simp [hcr, hlr]

theorem handleMessage_state_eq (rands : List (Nat → Nat)) (rooms : Registry) (hh : Handler)
    (msg : Message) {c : String} {room : Room} (hty : msg.type = "state_update")
    (hcr : hh.currentRoom = some c) (hlr : lookupRoom rooms c = some room) :
    handleMessage rands rooms hh msg =
      some { rooms := rooms, handler := hh,
             sent := relayToOthers room.players hh.player.id
               { type := "opponent_state", grid := msg.grid, score := msg.score } } := by
  unfold handleMessage
  rw [hty]
  simp [hcr, hlr]

theorem handleMessage_won_eq (rands : List (Nat → Nat)) (rooms : Registry) (hh : Handler)
    (msg : Message) {c : String} {room : Room} (hty : msg.type = "game_won")
    (hcr : hh.currentRoom = some c) (hlr : lookupRoom rooms c = some room) :
    handleMessage rands rooms hh msg =
      some { rooms := rooms, handler := hh,
             sent := broadcastAll room.players
               { type := "game_over", winner := hh.player.id } } := by
  unfold handleMessage
  rw [hty]
  simp [hcr, hlr]

theorem join_notFound (rands : List (Nat → Nat)) (rooms : Registry) (h : Handler)
    (msg : Message) (hty : msg.type = "join")
    (hlr : lookupRoom rooms (normalizeCode msg.room) = none) :
    handleMessage rands rooms h msg =
      some { rooms := rooms, handler := h,
             sent := [(h.player.id, { type := "error", message := "Room introuvable" })] } := by
  unfold handleMessage
  rw [hty]
  simp [hlr]

theorem join_full (rands : List (Nat → Nat)) (rooms : Registry) (h : Handler)
    (msg : Message) (room : Room) (hty : msg.type = "join")
    (hlr : lookupRoom rooms (normalizeCode msg.room) = some room)
    (hfull : 2 ≤ room.players.length) :
    handleMessage rands rooms h msg =
      some { rooms := rooms, handler := h,
             sent := [(h.player.id, { type := "error", message := "Room pleine" })] } := by
  unfold handleMessage
  rw [hty]
  simp [hlr, hfull]

theorem join_started (rands : List (Nat → Nat)) (rooms : Registry) (h : Handler)
    (msg : Message) (room : Room) (hty : msg.type = "join")
    (hlr : lookupRoom rooms (normalizeCode msg.room) = some room)
    (hlt : room.players.length < 2) (hst : room.started = true) :
    handleMessage rands rooms h msg =
      some { rooms := rooms, handler := h,
             sent := [(h.player.id, { type := "error", message := "Partie déjà en cours" })] } := by
  have hnf : ¬ 2 ≤ room.players.length := by omega
  unfold handleMessage
  rw [hty]
  simp [hlr, hnf, hst]

theorem join_success_two (rands : List (Nat → Nat)) (rooms : Registry) (h : Handler)
    (msg : Message) (room : Room) (hty : msg.type = "join")
    (hlr : lookupRoom rooms (normalizeCode msg.room) = some room)
    (hlen : room.players.length = 1) (hst : room.started = false) :
    handleMessage rands rooms h msg =
      some { rooms := insertRoom rooms (normalizeCode msg.room)
               { room with players := room.players ++ [h.player], started := true },
             handler := { h with currentRoom := some (normalizeCode msg.room) },
             sent := (h.player.id,
                 { type := "room_joined", room := room.code, playerId := h.player.id }) ::
               broadcastAll (room.players ++ [h.player])
                 { type := "game_start", room := room.code } } := by
  have hnf : ¬ 2 ≤ room.players.length := by omega
  unfold handleMessage
  rw [hty]
  simp [hlr, hnf, hst, hlen]

theorem join_success_wait (rands : List (Nat → Nat)) (rooms : Registry) (h : Handler)
    (msg : Message) (room : Room) (hty : msg.type = "join")
    (hlr : lookupRoom rooms (normalizeCode msg.room) = some room)
    (hlen : room.players.length = 0) (hst : room.started = false) :
    handleMessage rands rooms h msg =
      some { rooms := insertRoom rooms (normalizeCode msg.room)
               { room with players := room.players ++ [h.player] },
             handler := { h with currentRoom := some (normalizeCode msg.room) },
             sent := [(h.player.id,
               { type := "room_joined", room := room.code, playerId := h.player.id })] } := by
  have hnf : ¬ 2 ≤ room.players.length := by omega
  unfold handleMessage
  rw [hty]
  simp [hlr, hnf, hst, hlen]

theorem relayToOthers_mem {players : List Player} {senderId : String} {m : Message}
    {p : Player} (hp : p ∈ players) (hne : p.id ≠ senderId) :
    (p.id, m) ∈ relayToOthers players senderId m :=
  List.mem_map.mpr ⟨p, List.mem_filter.mpr ⟨hp, by simp [hne]⟩, rfl⟩

theorem relayToOthers_not_to_sender {players : List Player} {senderId : String} {m m' : Message}
    (hx : (senderId, m') ∈ relayToOthers players senderId m) : False := by
  obtain ⟨p, hp, he⟩ := List.mem_map.mp hx
  have h2 := (List.mem_filter.mp hp).2
  have h3 : p.id = senderId := congrArg Prod.fst he
  simp [h3] at h2

theorem broadcastAll_mem {players : List Player} {m : Message} {p : Player} (hp : p ∈ players) :
    (p.id, m) ∈ broadcastAll players m :=
  List.mem_map.mpr ⟨p, hp, rfl⟩

theorem broadcastAll_msg {players : List Player} {m : Message} {x : String × Message}
    (hx : x ∈ broadcastAll players m) : x.2 = m := by
  obtain ⟨p, hp, he⟩ := List.mem_map.mp hx
  rw [← he]

end DispatchLemmas

/-- C1 counterexample: a handler whose player `aaaaaaaa` shares a started
two-player room with `bbbbbbbb` processes a `player_lost` message carrying
score 42, and the dispatch sends nothing at all — in particular no
`opponent_lost` message reaches the other player. -/
theorem player_lost_counterexample :
    handleMessage [] regX handlerA { type := "player_lost", score := 42 } =
      some { rooms := regX, handler := handlerA, sent := [] } := by
  rfl

/-- C1 (amended): `player_lost` is not among the dispatched message types,
so processing it is a no-op: nothing is sent to anyone and neither the
registry nor the handler changes, whether or not a current room exists. -/
theorem player_lost_ignored (rands : List (Nat → Nat)) (rooms : Registry) (h : Handler)
    (msg : Message) (hty : msg.type = "player_lost") :
    handleMessage rands rooms h msg = some { rooms := rooms, handler := h, sent := [] } := by
  unfold handleMessage
  rw [hty]
  simp

/-- C1 witness: the amended no-op behaviour at a concrete state. -/
theorem player_lost_ignored_witness :
    ({ type := "player_lost", score := 7 } : Message).type = "player_lost" ∧
      handleMessage [] regX handlerA { type := "player_lost", score := 7 } =
        some { rooms := regX, handler := handlerA, sent := [] } :=
  ⟨rfl, player_lost_ignored [] regX handlerA _ rfl⟩

/-- C2 counterexample: a handler whose player `aaaaaaaa` shares a started
two-player room with `bbbbbbbb` processes a `restart_request` message, and
the dispatch sends nothing at all — no `restart_request` is delivered to
the other player. -/
theorem restart_counterexample :
    handleMessage [] regX handlerA { type := "restart_request" } =
      some { rooms := regX, handler := handlerA, sent := [] } := by
  rfl

/-- C2 (amended): `restart_request`, `restart_accept` and `restart_reject`
are not among the dispatched message types, so processing any of them is a
no-op: nothing is delivered to anyone and no state changes. -/
theorem restart_ignored (rands : List (Nat → Nat)) (rooms : Registry) (h : Handler)
    (msg : Message)
    (hty : msg.type = "restart_request" ∨ msg.type = "restart_accept" ∨
      msg.type = "restart_reject") :
    handleMessage rands rooms h msg = some { rooms := rooms, handler := h, sent := [] } := by
  rcases hty with hty | hty | hty <;>
    · unfold handleMessage
      rw [hty]
      simp

/-- C2 witness: the amended no-op behaviour at a concrete state. -/
theorem restart_ignored_witness :
    ({ type := "restart_accept" } : Message).type = "restart_accept" ∧
      handleMessage [] regX handlerA { type := "restart_accept" } =
        some { rooms := regX, handler := handlerA, sent := [] } :=
  ⟨rfl, restart_ignored [] regX handlerA _ (Or.inr (Or.inl rfl))⟩

/-- C10: dispatching a `move`, `state_update` or `game_won` message leaves
the registry — hence every room's player list, code and started flag — and
the handler state exactly as they were: these cases only write messages to
player connections. -/
theorem relay_cases_frame (rands : List (Nat → Nat)) (rooms : Registry) (h : Handler)
    (msg : Message)
    (hty : msg.type = "move" ∨ msg.type = "state_update" ∨ msg.type = "game_won") :
    ∃ res, handleMessage rands rooms h msg = some res ∧
      res.rooms = rooms ∧ res.handler = h := by
  cases hcr : h.currentRoom with
  | none =>
      refine ⟨{ rooms := rooms, handler := h, sent := [] }, ?_, rfl, rfl⟩
      rcases hty with hty | hty | hty <;>
        · unfold handleMessage
          rw [hty]
          simp [hcr]
  | some c =>
      cases hlr : lookupRoom rooms c with
      | none =>
          refine ⟨{ rooms := rooms, handler := h, sent := [] }, ?_, rfl, rfl⟩
          rcases hty with hty | hty | hty <;>
            · unfold handleMessage
              rw [hty]
              simp [hcr, hlr]
      | some room =>
          rcases hty with hty | hty | hty
          · exact ⟨_, handleMessage_move_eq rands rooms h msg hty hcr hlr, rfl, rfl⟩
          · exact ⟨_, handleMessage_state_eq rands rooms h msg hty hcr hlr, rfl, rfl⟩
          · exact ⟨_, handleMessage_won_eq rands rooms h msg hty hcr hlr, rfl, rfl⟩

/-- C6: with a current room, `move` and `state_update` dispatch through the
filtered relay loop, which delivers the relayed message to every current
player whose id differs from the sender's and never back to the sender,
while `game_won` dispatches through the unfiltered broadcast loop,
producing `game_over` with the sender as winner, delivered to every
current player including the sender. -/
theorem relay_vs_broadcast (rands : List (Nat → Nat)) (rooms : Registry) (hh : Handler)
    (c : String) (room : Room) (mvMsg stMsg gwMsg : Message)
    (hcr : hh.currentRoom = some c) (hlr : lookupRoom rooms c = some room)
    (hmv : mvMsg.type = "move") (hst : stMsg.type = "state_update")
    (hgw : gwMsg.type = "game_won") :
    (handleMessage rands rooms hh mvMsg =
      some { rooms := rooms, handler := hh,
             sent := relayToOthers room.players hh.player.id
               { type := "opponent_move", direction := mvMsg.direction,
                 playerId := hh.player.id } }) ∧
    (handleMessage rands rooms hh stMsg =
      some { rooms := rooms, handler := hh,
             sent := relayToOthers room.players hh.player.id
               { type := "opponent_state", grid := stMsg.grid, score := stMsg.score } }) ∧
    (handleMessage rands rooms hh gwMsg =
      some { rooms := rooms, handler := hh,
             sent := broadcastAll room.players
               { type := "game_over", winner := hh.player.id } }) ∧
    (∀ m : Message, ∀ p ∈ room.players, p.id ≠ hh.player.id →
        (p.id, m) ∈ relayToOthers room.players hh.player.id m) ∧
    (∀ m m' : Message, (hh.player.id, m') ∉ relayToOthers room.players hh.player.id m) ∧
    (∀ m : Message, ∀ p ∈ room.players, (p.id, m) ∈ broadcastAll room.players m) :=
  ⟨handleMessage_move_eq rands rooms hh mvMsg hmv hcr hlr,
   handleMessage_state_eq rands rooms hh stMsg hst hcr hlr,
   handleMessage_won_eq rands rooms hh gwMsg hgw hcr hlr,
   fun _ _ hp hne => relayToOthers_mem hp hne,
   fun _ _ hx => relayToOthers_not_to_sender hx,
   fun _ _ hp => broadcastAll_mem hp⟩

/-- C6 witness: the delivery discipline at a concrete two-player state. -/
theorem relay_vs_broadcast_witness :
    handleMessage [] regX handlerA { type := "game_won" } =
      some { rooms := regX, handler := handlerA,
             sent := broadcastAll [pa, pb] { type := "game_over", winner := "aaaaaaaa" } } :=
  (relay_vs_broadcast [] regX handlerA "ROOMX" roomX
    { type := "move" } { type := "state_update" } { type := "game_won" }
    rfl rfl rfl rfl rfl).2.2.1

/-- C5: a `state_update` carrying grid `g` and score `s`, sent by either
player of a two-player room, results in exactly one delivery: an
`opponent_state` message with the identical grid and score, to the other
player; the sender receives nothing and no state changes. -/
theorem state_update_roundtrip (rands : List (Nat → Nat)) (rooms : Registry) (hh : Handler)
    (c : String) (room : Room) (pA pB : Player) (g : Grid) (s : Int) (msg : Message)
    (hcr : hh.currentRoom = some c) (hlr : lookupRoom rooms c = some room)
    (hps : room.players = [pA, pB]) (hne : pA.id ≠ pB.id)
    (hty : msg.type = "state_update") (hg : msg.grid = some g) (hs : msg.score = s) :
    (hh.player.id = pA.id →
      handleMessage rands rooms hh msg =
        some { rooms := rooms, handler := hh,
               sent := [(pB.id,
                 { type := "opponent_state", grid := some g, score := s })] }) ∧
    (hh.player.id = pB.id →
      handleMessage rands rooms hh msg =
        some { rooms := rooms, handler := hh,
               sent := [(pA.id,
                 { type := "opponent_state", grid := some g, score := s })] }) := by
  have hne2 : (pB.id != pA.id) = true := by
    simp only [bne_iff_ne, ne_eq]
    exact fun hx => hne hx.symm
  have hne1 : (pA.id != pB.id) = true := by
    simp only [bne_iff_ne, ne_eq]
    exact hne
  constructor
  · intro hsender
    rw [handleMessage_state_eq rands rooms hh msg hty hcr hlr, hg, hs]
    simp [relayToOthers, hps, hsender, hne2]
  · intro hsender
    rw [handleMessage_state_eq rands rooms hh msg hty hcr hlr, hg, hs]
    simp [relayToOthers, hps, hsender, hne1]

/-- C5 witness: the round trip in both directions of the concrete
two-player room — first-listed sender and second-listed sender. -/
theorem state_update_roundtrip_witness :
    (handleMessage [] regX handlerA
        { type := "state_update", grid := some gridX, score := 30 } =
      some { rooms := regX, handler := handlerA,
             sent := [("bbbbbbbb", { type := "opponent_state", grid := some gridX,
                                     score := 30 })] }) ∧
    (handleMessage [] regX handlerB
        { type := "state_update", grid := some gridX, score := 44 } =
      some { rooms := regX, handler := handlerB,
             sent := [("aaaaaaaa", { type := "opponent_state", grid := some gridX,
                                     score := 44 })] }) :=
  ⟨(state_update_roundtrip [] regX handlerA "ROOMX" roomX pa pb gridX 30
      { type := "state_update", grid := some gridX, score := 30 }
      rfl rfl rfl (by decide) rfl rfl rfl).1 rfl,
   (state_update_roundtrip [] regX handlerB "ROOMX" roomX pa pb gridX 44
      { type := "state_update", grid := some gridX, score := 44 }
      rfl rfl rfl (by decide) rfl rfl rfl).2 rfl⟩

/-- C4: when either one of the two (distinct-id) players of a room
disconnects, exactly one `error` notification is sent, to the remaining
player only — never to the departing one — and the departing player is
removed from the room's list, the room staying registered; disconnecting
the last player sends nothing and removes the room from the registry so
that a subsequent lookup of its code returns none. -/
theorem disconnect_cleanup (rooms : Registry) (room : Room) (pA pB : Player)
    (hne : pA.id ≠ pB.id) :
    (room.players = [pA, pB] →
      handleDisconnect rooms room pA =
        (insertRoom rooms room.code { room with players := [pB] },
         [(pB.id, { type := "error", message := "L'adversaire s'est déconnecté" })]) ∧
      lookupRoom (handleDisconnect rooms room pA).1 room.code =
        some { room with players := [pB] }) ∧
    (room.players = [pA, pB] →
      handleDisconnect rooms room pB =
        (insertRoom rooms room.code { room with players := [pA] },
         [(pA.id, { type := "error", message := "L'adversaire s'est déconnecté" })]) ∧
      lookupRoom (handleDisconnect rooms room pB).1 room.code =
        some { room with players := [pA] }) ∧
    (room.players = [pB] →
      handleDisconnect rooms room pB = (removeRoom rooms room.code, []) ∧
      lookupRoom (handleDisconnect rooms room pB).1 room.code = none) := by
  have hne2 : (pB.id != pA.id) = true := by
    simp only [bne_iff_ne, ne_eq]
    exact fun hx => hne hx.symm
  have hne1 : (pA.id != pB.id) = true := by
    simp only [bne_iff_ne, ne_eq]
    exact hne
  refine ⟨?_, ?_, ?_⟩
  · intro hps
    have heq : handleDisconnect rooms room pA =
        (insertRoom rooms room.code { room with players := [pB] },
         [(pB.id, { type := "error", message := "L'adversaire s'est déconnecté" })]) := by
      unfold handleDisconnect
      simp [hps, hne2, Ne.symm hne]
    refine ⟨heq, ?_⟩
    rw [heq]
    exact lookupRoom_insert_self rooms room.code _
  · intro hps
    have heq : handleDisconnect rooms room pB =
        (insertRoom rooms room.code { room with players := [pA] },
         [(pA.id, { type := "error", message := "L'adversaire s'est déconnecté" })]) := by
      unfold handleDisconnect
      simp [hps, hne1, hne]
    refine ⟨heq, ?_⟩
    rw [heq]
    exact lookupRoom_insert_self rooms room.code _
  · intro hps
    have heq : handleDisconnect rooms room pB = (removeRoom rooms room.code, []) := by
      unfold handleDisconnect
      simp [hps]
    refine ⟨heq, ?_⟩
    rw [heq]
    exact lookupRoom_remove_self rooms room.code

/-- C4 witness: the cleanup behaviour at a concrete two-player room, for
either departing player. -/
theorem disconnect_cleanup_witness :
    (handleDisconnect regX roomX pa =
        (insertRoom regX roomX.code { roomX with players := [pb] },
         [(pb.id, { type := "error", message := "L'adversaire s'est déconnecté" })]) ∧
      lookupRoom (handleDisconnect regX roomX pa).1 roomX.code =
        some { roomX with players := [pb] }) ∧
    (handleDisconnect regX roomX pb =
        (insertRoom regX roomX.code { roomX with players := [pa] },
         [(pa.id, { type := "error", message := "L'adversaire s'est déconnecté" })]) ∧
      lookupRoom (handleDisconnect regX roomX pb).1 roomX.code =
        some { roomX with players := [pa] }) :=
  ⟨(disconnect_cleanup regX roomX pa pb (by decide)).1 rfl,
   (disconnect_cleanup regX roomX pa pb (by decide)).2.1 rfl⟩

/-- C10 witness: the frame property at a concrete state. -/
theorem relay_cases_frame_witness :
    ({ type := "move", direction := "up" } : Message).type = "move" ∧
      ∃ res,
        handleMessage [] regX handlerA { type := "move", direction := "up" } = some res ∧
        res.rooms = regX ∧ res.handler = handlerA :=
  ⟨rfl, relay_cases_frame [] regX handlerA _ (Or.inl rfl)⟩

/-- C7: `join` uppercases and trims the given code before lookup; an
unknown code yields error "Room introuvable", a full room "Room pleine", a
started room "Partie déjà en cours" — each error goes to the offending
client only and leaves the registry, the room's player list and its
started flag unchanged; otherwise the joiner is appended and receives
`room_joined` with the room code and its player id, and when the room now
has 2 players the started flag is set and both players receive
`game_start`. -/
theorem join_behaviour (rands : List (Nat → Nat)) (rooms : Registry) (h : Handler)
    (msg : Message) (hty : msg.type = "join") :
    (lookupRoom rooms (normalizeCode msg.room) = none →
      handleMessage rands rooms h msg =
        some { rooms := rooms, handler := h,
               sent := [(h.player.id, { type := "error", message := "Room introuvable" })] }) ∧
    (∀ room, lookupRoom rooms (normalizeCode msg.room) = some room →
      2 ≤ room.players.length →
      handleMessage rands rooms h msg =
        some { rooms := rooms, handler := h,
               sent := [(h.player.id, { type := "error", message := "Room pleine" })] }) ∧
    (∀ room, lookupRoom rooms (normalizeCode msg.room) = some room →
      room.players.length < 2 → room.started = true →
      handleMessage rands rooms h msg =
        some { rooms := rooms, handler := h,
               sent := [(h.player.id, { type := "error", message := "Partie déjà en cours" })] }) ∧
    (∀ room, lookupRoom rooms (normalizeCode msg.room) = some room →
      room.players.length = 1 → room.started = false →
      handleMessage rands rooms h msg =
        some { rooms := insertRoom rooms (normalizeCode msg.room)
                 { room with players := room.players ++ [h.player], started := true },
               handler := { h with currentRoom := some (normalizeCode msg.room) },
               sent := (h.player.id,
                   { type := "room_joined", room := room.code, playerId := h.player.id }) ::
                 broadcastAll (room.players ++ [h.player])
                   { type := "game_start", room := room.code } }) ∧
    (∀ room, lookupRoom rooms (normalizeCode msg.room) = some room →
      room.players.length = 0 → room.started = false →
      handleMessage rands rooms h msg =
        some { rooms := insertRoom rooms (normalizeCode msg.room)
                 { room with players := room.players ++ [h.player] },
               handler := { h with currentRoom := some (normalizeCode msg.room) },
               sent := [(h.player.id,
                 { type := "room_joined", room := room.code, playerId := h.player.id })] }) :=
  ⟨fun hlr => join_notFound rands rooms h msg hty hlr,
   fun room hlr hfull => join_full rands rooms h msg room hty hlr hfull,
   fun room hlr hlt hst => join_started rands rooms h msg room hty hlr hlt hst,
   fun room hlr hlen hst => join_success_two rands rooms h msg room hty hlr hlen hst,
   fun room hlr hlen hst => join_success_wait rands rooms h msg room hty hlr hlen hst⟩

/-- C7 witness: joining the one-player waiting room with a denormalized
code (" roomw ") appends the joiner, marks the room started, and sends
`room_joined` then `game_start` to both players. -/
theorem join_behaviour_witness :
    handleMessage [] regW handlerA0 { type := "join", room := " roomw " } =
      some { rooms := insertRoom regW "ROOMW"
               { roomW with players := roomW.players ++ [pa], started := true },
             handler := { handlerA0 with currentRoom := some "ROOMW" },
             sent := ("aaaaaaaa",
                 { type := "room_joined", room := "ROOMW", playerId := "aaaaaaaa" }) ::
               broadcastAll (roomW.players ++ [pa]) { type := "game_start", room := "ROOMW" } } :=
  (join_behaviour [] regW handlerA0 { type := "join", room := " roomw " } rfl).2.2.2.1
    roomW (by decide) rfl rfl

/-- C8: `createRoom` keeps sampling 5-character codes over the restricted
alphabet until one not already registered is found, inserts a new empty,
unstarted room under that code before returning, and touches no other
binding; consequently the returned code differs from the code of every
room still registered at creation time, so codes of created rooms are
pairwise distinct as long as both remain in the registry. -/
theorem createRoom_fresh (rands : List (Nat → Nat)) (R : Registry) (room : Room)
    (R2 : Registry) (hc : createRoom rands R = some (room, R2)) :
    room.code.length = 5 ∧
    (∀ ch ∈ room.code.toList, ch ∈ roomCodeChars) ∧
    room.players = [] ∧ room.started = false ∧
    lookupRoom R room.code = none ∧
    lookupRoom R2 room.code = some room ∧
    (∀ c, c ≠ room.code → lookupRoom R2 c = lookupRoom R c) ∧
    (∀ c r, lookupRoom R c = some r → room.code ≠ c) := by
  obtain ⟨h1, h2, h3, h4, h5, h6⟩ := createRoom_spec hc
  refine ⟨h1, h2, h3, h4, h5, ?_, ?_, ?_⟩
  · rw [h6]
    exact lookupRoom_insert_self R room.code room
  · intro c hcne
    rw [h6]
    exact lookupRoom_insert_ne R room hcne
  · intro c r hr heq
    subst heq
    rw [h5] at hr
    exact Option.noConfusion hr

/-- C8 witness: creating in the registry that already holds `roomX` lands
on the fresh code AAAAA, which stays registered and distinct from the
already-registered ROOMX. -/
theorem createRoom_fresh_witness :
    lookupRoom regX "AAAAA" = none ∧
    lookupRoom (insertRoom regX "AAAAA" { code := "AAAAA" }) "AAAAA" =
      some { code := "AAAAA" } ∧
    ("AAAAA" : String) ≠ "ROOMX" :=
  have hc : createRoom [fun _ => 0] regX =
      some ({ code := "AAAAA" }, insertRoom regX "AAAAA" { code := "AAAAA" }) := by decide
  ⟨(createRoom_fresh [fun _ => 0] regX { code := "AAAAA" } _ hc).2.2.2.2.1,
   (createRoom_fresh [fun _ => 0] regX { code := "AAAAA" } _ hc).2.2.2.2.2.1,
   (createRoom_fresh [fun _ => 0] regX { code := "AAAAA" } _ hc).2.2.2.2.2.2.2 "ROOMX"
     roomX (by decide)⟩

theorem handleMessage_rooms_create {rands : List (Nat → Nat)} {rooms : Registry}
    {h : Handler} {msg : Message} {res : StepResult} (h1 : msg.type = "create")
    (hres : handleMessage rands rooms h msg = some res) :
    ∃ room r1, createRoom rands rooms = some (room, r1) ∧
      res.rooms = insertRoom r1 room.code
        { room with players := room.players ++ [h.player] } := by
  unfold handleMessage at hres
  rw [h1] at hres
  simp only [reduceIte] at hres
  cases hcreate : createRoom rands rooms with
  | none =>
      rw [hcreate] at hres
      exact absurd hres (by simp)
  | some pr =>
      obtain ⟨room, r1⟩ := pr
      rw [hcreate] at hres
      simp only [Option.some.injEq] at hres
      exact ⟨room, r1, rfl, by rw [← hres]⟩

theorem handleMessage_rooms_join {rands : List (Nat → Nat)} {rooms : Registry}
    {h : Handler} {msg : Message} {res : StepResult} (h2 : msg.type = "join")
    (hres : handleMessage rands rooms h msg = some res) :
    res.rooms = rooms ∨
    (∃ room, lookupRoom rooms (normalizeCode msg.room) = some room ∧
      ¬ 2 ≤ room.players.length ∧ room.started = false ∧
      (res.rooms = insertRoom rooms (normalizeCode msg.room)
          { room with players := room.players ++ [h.player], started := true } ∨
       res.rooms = insertRoom rooms (normalizeCode msg.room)
          { room with players := room.players ++ [h.player] })) := by
  cases hlr : lookupRoom rooms (normalizeCode msg.room) with
  | none =>
      rw [join_notFound rands rooms h msg h2 hlr] at hres
      simp only [Option.some.injEq] at hres
      exact Or.inl (by rw [← hres])
  | some room =>
      by_cases hfull : 2 ≤ room.players.length
      · rw [join_full rands rooms h msg room h2 hlr hfull] at hres
        simp only [Option.some.injEq] at hres
        exact Or.inl (by rw [← hres])
      · by_cases hst : room.started = true
        · rw [join_started rands rooms h msg room h2 hlr (by omega) hst] at hres
          simp only [Option.some.injEq] at hres
          exact Or.inl (by rw [← hres])
        · have hst2 : room.started = false := by
            revert hst
            cases room.started <;> simp
          have hlen : room.players.length = 0 ∨ room.players.length = 1 := by omega
          rcases hlen with hlen | hlen
          · rw [join_success_wait rands rooms h msg room h2 hlr hlen hst2] at hres
            simp only [Option.some.injEq] at hres
            exact Or.inr ⟨room, rfl, hfull, hst2, Or.inr (by rw [← hres])⟩
          · rw [join_success_two rands rooms h msg room h2 hlr hlen hst2] at hres
            simp only [Option.some.injEq] at hres
            exact Or.inr ⟨room, rfl, hfull, hst2, Or.inl (by rw [← hres])⟩

theorem handleMessage_rooms_other {rands : List (Nat → Nat)} {rooms : Registry}
    {h : Handler} {msg : Message} {res : StepResult}
    (h1 : msg.type ≠ "create") (h2 : msg.type ≠ "join")
    (hres : handleMessage rands rooms h msg = some res) :
    res.rooms = rooms ∧ res.handler = h := by
  unfold handleMessage at hres
  rw [if_neg h1, if_neg h2] at hres
  have relayCase : ∀ (f : Room → List (String × Message)),
      ((match h.currentRoom with
        | none => some { rooms := rooms, handler := h, sent := [] }
        | some c =>
            match lookupRoom rooms c with
            | none => some { rooms := rooms, handler := h, sent := [] }
            | some room => some { rooms := rooms, handler := h, sent := f room }) = some res) →
      res.rooms = rooms ∧ res.handler = h := by
    intro f hx
    cases hcr : h.currentRoom with
    | none =>
        rw [hcr] at hx
        simp at hx
        exact ⟨by rw [← hx], by rw [← hx]⟩
    | some c =>
        cases hlr : lookupRoom rooms c with
        | none =>
            rw [hcr] at hx
            simp [hlr] at hx
            exact ⟨by rw [← hx], by rw [← hx]⟩
        | some room =>
            rw [hcr] at hx
            simp [hlr] at hx
            exact ⟨by rw [← hx], by rw [← hx]⟩
  by_cases h3 : msg.type = "move"
  · rw [if_pos h3] at hres
    exact relayCase _ hres
  · rw [if_neg h3] at hres
    by_cases h4 : msg.type = "state_update"
    · rw [if_pos h4] at hres
      exact relayCase _ hres
    · rw [if_neg h4] at hres
      by_cases h5 : msg.type = "game_won"
      · rw [if_pos h5] at hres
        exact relayCase _ hres
      · rw [if_neg h5] at hres
        simp only [Option.some.injEq] at hres
        exact ⟨by rw [← hres], by rw [← hres]⟩

theorem handleMessage_cases {rands : List (Nat → Nat)} {rooms : Registry} {h : Handler}
    {msg : Message} {res : StepResult}
    (hres : handleMessage rands rooms h msg = some res) :
    res.rooms = rooms ∨
    (∃ room r1, createRoom rands rooms = some (room, r1) ∧
      res.rooms = insertRoom r1 room.code
        { room with players := room.players ++ [h.player] }) ∨
    (∃ room, lookupRoom rooms (normalizeCode msg.room) = some room ∧
      ¬ 2 ≤ room.players.length ∧ room.started = false ∧
      (res.rooms = insertRoom rooms (normalizeCode msg.room)
          { room with players := room.players ++ [h.player], started := true } ∨
       res.rooms = insertRoom rooms (normalizeCode msg.room)
          { room with players := room.players ++ [h.player] })) := by
  by_cases h1 : msg.type = "create"
  · exact Or.inr (Or.inl (handleMessage_rooms_create h1 hres))
  · by_cases h2 : msg.type = "join"
    · rcases handleMessage_rooms_join h2 hres with hx | hx
      · exact Or.inl hx
      · exact Or.inr (Or.inr hx)
    · exact Or.inl (handleMessage_rooms_other h1 h2 hres).1

theorem handleDisconnect_rooms (rooms : Registry) (room : Room) (player : Player) :
    (handleDisconnect rooms room player).1 = removeRoom rooms room.code ∨
    (handleDisconnect rooms room player).1 =
      insertRoom rooms room.code
        { room with players := room.players.filter (fun p => p.id != player.id) } := by
  by_cases hlen : (room.players.filter (fun p => p.id != player.id)).length = 0
  · left
    unfold handleDisconnect
    simp [hlen]
  · right
    unfold handleDisconnect
    simp [hlen]

theorem handleMessage_bounded {rands : List (Nat → Nat)} {rooms : Registry} {h : Handler}
    {msg : Message} {res : StepResult}
    (hB : RoomsBounded rooms) (hres : handleMessage rands rooms h msg = some res) :
    RoomsBounded res.rooms := by
  rcases handleMessage_cases hres with heq | ⟨room, r1, hcreate, heq⟩ |
    ⟨room, hlr, hfull, hst, heq | heq⟩
  · rw [heq]
    exact hB
  · obtain ⟨_, _, hply, _, _, hr1⟩ := createRoom_spec hcreate
    rw [heq, hr1]
    refine roomsBounded_insert (roomsBounded_insert hB ?_) ?_ <;> simp [hply]
  · rw [heq]
    refine roomsBounded_insert hB ?_
    simp only [List.length_append, List.length_cons, List.length_nil]
    omega
  · rw [heq]
    refine roomsBounded_insert hB ?_
    simp only [List.length_append, List.length_cons, List.length_nil]
    omega

theorem handleMessage_codes {rands : List (Nat → Nat)} {rooms : Registry} {h : Handler}
    {msg : Message} {res : StepResult}
    (hC : CodesConsistent rooms) (hres : handleMessage rands rooms h msg = some res) :
    CodesConsistent res.rooms := by
  rcases handleMessage_cases hres with heq | ⟨room, r1, hcreate, heq⟩ |
    ⟨room, hlr, hfull, hst, heq | heq⟩
  · rw [heq]
    exact hC
  · obtain ⟨_, _, _, _, _, hr1⟩ := createRoom_spec hcreate
    rw [heq, hr1]
    exact codesConsistent_insert (codesConsistent_insert hC rfl) rfl
  · rw [heq]
    refine codesConsistent_insert hC ?_
    show room.code = normalizeCode msg.room
    exact codesConsistent_lookup hC hlr
  · rw [heq]
    refine codesConsistent_insert hC ?_
    show room.code = normalizeCode msg.room
    exact codesConsistent_lookup hC hlr

theorem handleMessage_started {rands : List (Nat → Nat)} {rooms : Registry} {h : Handler}
    {msg : Message} {res : StepResult} {c : String} {r r2 : Room}
    (hres : handleMessage rands rooms h msg = some res)
    (hr : lookupRoom rooms c = some r) (hst : r.started = true)
    (hr2 : lookupRoom res.rooms c = some r2) : r2.started = true := by
  rcases handleMessage_cases hres with heq | ⟨room, r1, hcreate, heq⟩ |
    ⟨room, hlr, hfull, hstf, heq | heq⟩
  · rw [heq, hr] at hr2
    cases hr2
    exact hst
  · obtain ⟨_, _, _, _, hfresh, hr1⟩ := createRoom_spec hcreate
    have hne : c ≠ room.code := by
      intro hcc
      rw [hcc, hfresh] at hr
      exact Option.noConfusion hr
    rw [heq, hr1, lookupRoom_insert_ne _ _ hne, lookupRoom_insert_ne _ _ hne, hr] at hr2
    cases hr2
    exact hst
  · have hne : c ≠ normalizeCode msg.room := by
      intro hcc
      rw [hcc, hlr] at hr
      cases hr
      rw [hstf] at hst
      exact Bool.noConfusion hst
    rw [heq, lookupRoom_insert_ne _ _ hne, hr] at hr2
    cases hr2
    exact hst
  · have hne : c ≠ normalizeCode msg.room := by
      intro hcc
      rw [hcc, hlr] at hr
      cases hr
      rw [hstf] at hst
      exact Bool.noConfusion hst
    rw [heq, lookupRoom_insert_ne _ _ hne, hr] at hr2
    cases hr2
    exact hst

theorem sysStep_rooms {s : SysState} {e : Event} {s2 : SysState}
    (hstep : sysStep s e = some s2) :
    s2.rooms = s.rooms ∨
    (∃ rands h msg res, handleMessage rands s.rooms h msg = some res ∧
      s2.rooms = res.rooms) ∨
    (∃ c room player, lookupRoom s.rooms c = some room ∧
      s2.rooms = (handleDisconnect s.rooms room player).1) := by
  cases e with
  | connect p =>
      simp only [sysStep] at hstep
      simp only [Option.some.injEq] at hstep
      exact Or.inl (by rw [← hstep])
  | recv hid rands msg =>
      simp only [sysStep] at hstep
      cases hg : s.handlers.get? hid with
      | none =>
          rw [hg] at hstep
          simp only [Option.some.injEq] at hstep
          exact Or.inl (by rw [← hstep])
      | some oh =>
          cases oh with
          | none =>
              rw [hg] at hstep
              simp only [Option.some.injEq] at hstep
              exact Or.inl (by rw [← hstep])
          | some h =>
              rw [hg] at hstep
              simp only [] at hstep
              cases hm : handleMessage rands s.rooms h msg with
              | none =>
                  rw [hm] at hstep
                  simp at hstep
              | some res =>
                  rw [hm] at hstep
                  simp only [Option.some.injEq] at hstep
                  exact Or.inr (Or.inl ⟨rands, h, msg, res, hm, by rw [← hstep]⟩)
  | disconnect hid =>
      simp only [sysStep] at hstep
      cases hg : s.handlers.get? hid with
      | none =>
          rw [hg] at hstep
          simp only [Option.some.injEq] at hstep
          exact Or.inl (by rw [← hstep])
      | some oh =>
          cases oh with
          | none =>
              rw [hg] at hstep
              simp only [Option.some.injEq] at hstep
              exact Or.inl (by rw [← hstep])
          | some h =>
              rw [hg] at hstep
              simp only [] at hstep
              cases hcr : h.currentRoom with
              | none =>
                  rw [hcr] at hstep
                  simp only [Option.some.injEq] at hstep
                  exact Or.inl (by rw [← hstep])
              | some c =>
                  cases hlr : lookupRoom s.rooms c with
                  | none =>
                      rw [hcr] at hstep
                      simp only [hlr, Option.some.injEq] at hstep
                      exact Or.inl (by rw [← hstep])
                  | some room =>
                      rw [hcr] at hstep
                      simp only [hlr, Option.some.injEq] at hstep
                      exact Or.inr (Or.inr ⟨c, room, h.player, hlr, by rw [← hstep]⟩)

theorem sysStep_bounded {s : SysState} {e : Event} {s2 : SysState}
    (hB : RoomsBounded s.rooms) (hstep : sysStep s e = some s2) :
    RoomsBounded s2.rooms := by
  rcases sysStep_rooms hstep with heq | ⟨rands, h, msg, res, hm, heq⟩ |
    ⟨c, room, player, hlr, heq⟩
  · rw [heq]
    exact hB
  · rw [heq]
    exact handleMessage_bounded hB hm
  · rw [heq]
    rcases handleDisconnect_rooms s.rooms room player with hd | hd
    · rw [hd]
      exact roomsBounded_remove hB
    · rw [hd]
      refine roomsBounded_insert hB ?_
      exact le_trans (List.length_filter_le _ _) (hB (c, room) (lookupRoom_mem hlr))

theorem sysStep_codes {s : SysState} {e : Event} {s2 : SysState}
    (hC : CodesConsistent s.rooms) (hstep : sysStep s e = some s2) :
    CodesConsistent s2.rooms := by
  rcases sysStep_rooms hstep with heq | ⟨rands, h, msg, res, hm, heq⟩ |
    ⟨c, room, player, hlr, heq⟩
  · rw [heq]
    exact hC
  · rw [heq]
    exact handleMessage_codes hC hm
  · rw [heq]
    rcases handleDisconnect_rooms s.rooms room player with hd | hd
    · rw [hd]
      exact codesConsistent_remove hC
    · rw [hd]
      exact codesConsistent_insert hC rfl

theorem sysStep_started {s : SysState} {e : Event} {s2 : SysState} {c : String} {r r2 : Room}
    (hC : CodesConsistent s.rooms) (hstep : sysStep s e = some s2)
    (hr : lookupRoom s.rooms c = some r) (hst : r.started = true)
    (hr2 : lookupRoom s2.rooms c = some r2) : r2.started = true := by
  rcases sysStep_rooms hstep with heq | ⟨rands, h, msg, res, hm, heq⟩ |
    ⟨c0, room, player, hlr, heq⟩
  · rw [heq, hr] at hr2
    cases hr2
    exact hst
  · rw [heq] at hr2
    exact handleMessage_started hm hr hst hr2
  · rw [heq] at hr2
    rcases handleDisconnect_rooms s.rooms room player with hd | hd
    · rw [hd] at hr2
      by_cases hcc : c = room.code
      · rw [hcc, lookupRoom_remove_self] at hr2
        exact Option.noConfusion hr2
      · rw [lookupRoom_remove_ne _ hcc, hr] at hr2
        cases hr2
        exact hst
    · rw [hd] at hr2
      by_cases hcc : c = room.code
      · have hceq : room.code = c0 := codesConsistent_lookup hC hlr
        have hreq : r = room := by
          rw [hcc, hceq, hlr] at hr
          cases hr
          rfl
        rw [hcc, lookupRoom_insert_self] at hr2
        cases hr2
        show room.started = true
        rw [← hreq]
        exact hst
      · rw [lookupRoom_insert_ne _ _ hcc, hr] at hr2
        cases hr2
        exact hst

theorem sysSteps_inv {evs : List Event} {s s2 : SysState}
    (hB : RoomsBounded s.rooms) (hC : CodesConsistent s.rooms)
    (hs : sysSteps s evs = some s2) :
    RoomsBounded s2.rooms ∧ CodesConsistent s2.rooms := by
  induction evs generalizing s with
  | nil =>
      unfold sysSteps at hs
      simp only [Option.some.injEq] at hs
      rw [← hs]
      exact ⟨hB, hC⟩
  | cons e rest ih =>
      unfold sysSteps at hs
      cases hstep : sysStep s e with
      | none =>
          rw [hstep] at hs
          simp at hs
      | some s1 =>
          rw [hstep] at hs
          exact ih (sysStep_bounded hB hstep) (sysStep_codes hC hstep) hs

theorem sysSteps_init_inv {evs : List Event} {s : SysState}
    (hs : sysSteps initState evs = some s) :
    RoomsBounded s.rooms ∧ CodesConsistent s.rooms := by
  refine sysSteps_inv ?_ ?_ hs
  · intro pr hpr
    exact absurd hpr (List.not_mem_nil pr)
  · intro pr hpr
    exact absurd hpr (List.not_mem_nil pr)

/-- C3: along every event sequence from the empty start state, every
registered room holds at most 2 players; a join to a room already holding
2 players is rejected with the "Room pleine" (RoomFull) error and changes
nothing; a join to a started room with a free slot is rejected with
"Partie déjà en cours" (AlreadyStarted) and changes nothing; no step ever
resets a registered room's started flag back to false; and a join to a
started room never succeeds — registry and handler are left unchanged. -/
theorem room_invariants (evs : List Event) (s : SysState)
    (hs : sysSteps initState evs = some s) :
    RoomsBounded s.rooms ∧
    (∀ (rands : List (Nat → Nat)) (h : Handler) (msg : Message) (room : Room),
      msg.type = "join" →
      lookupRoom s.rooms (normalizeCode msg.room) = some room →
      2 ≤ room.players.length →
      handleMessage rands s.rooms h msg =
        some { rooms := s.rooms, handler := h,
               sent := [(h.player.id, { type := "error", message := "Room pleine" })] }) ∧
    (∀ (rands : List (Nat → Nat)) (h : Handler) (msg : Message) (room : Room),
      msg.type = "join" →
      lookupRoom s.rooms (normalizeCode msg.room) = some room →
      room.players.length < 2 → room.started = true →
      handleMessage rands s.rooms h msg =
        some { rooms := s.rooms, handler := h,
               sent := [(h.player.id,
                 { type := "error", message := "Partie déjà en cours" })] }) ∧
    (∀ (e : Event) (s2 : SysState) (c : String) (r r2 : Room),
      sysStep s e = some s2 →
      lookupRoom s.rooms c = some r → r.started = true →
      lookupRoom s2.rooms c = some r2 → r2.started = true) ∧
    (∀ (rands : List (Nat → Nat)) (h : Handler) (msg : Message) (room : Room)
        (res : StepResult),
      msg.type = "join" →
      lookupRoom s.rooms (normalizeCode msg.room) = some room → room.started = true →
      handleMessage rands s.rooms h msg = some res →
      res.rooms = s.rooms ∧ res.handler = h) := by
  obtain ⟨hB, hC⟩ := sysSteps_init_inv hs
  refine ⟨hB, ?_, ?_, ?_, ?_⟩
  · intro rands h msg room hty hlr hfull
    exact join_full rands s.rooms h msg room hty hlr hfull
  · intro rands h msg room hty hlr hlt hst
    exact join_started rands s.rooms h msg room hty hlr hlt hst
  · intro e s2 c r r2 hstep hr hst hr2
    exact sysStep_started hC hstep hr hst hr2
  · intro rands h msg room res hty hlr hst hres
    by_cases hfull : 2 ≤ room.players.length
    · rw [join_full rands s.rooms h msg room hty hlr hfull] at hres
      simp only [Option.some.injEq] at hres
      exact ⟨by rw [← hres], by rw [← hres]⟩
    · rw [join_started rands s.rooms h msg room hty hlr (by omega) hst] at hres
      simp only [Option.some.injEq] at hres
      exact ⟨by rw [← hres], by rw [← hres]⟩

/-- C3 witness: the capacity invariant at the concrete state reached by a
create followed by a join that starts the game. -/
theorem room_invariants_witness :
    sysSteps initState evsX = some sX ∧ RoomsBounded sX.rooms :=
  ⟨by decide, (room_invariants evsX sX (by decide)).1⟩

theorem handleMessage_create_eq (rands : List (Nat → Nat)) (rooms : Registry) (h : Handler)
    (msg : Message) (room : Room) (r1 : Registry) (hty : msg.type = "create")
    (hcreate : createRoom rands rooms = some (room, r1)) :
    handleMessage rands rooms h msg =
      some { rooms := insertRoom r1 room.code
               { room with players := room.players ++ [h.player] },
             handler := { h with currentRoom := some room.code },
             sent := [(h.player.id,
               { type := "room_created", room := room.code, playerId := h.player.id })] } := by
  unfold handleMessage
  rw [hty]
  simp [hcreate]

/-- C9: a handler whose player already sits in room `cR` (holding R0) that
processes a `create`, or a successful `join` of a different room, gets
appended to the new room and its current-room pointer redirected, while
`cR`'s binding — stale membership included — is left exactly as it was;
and a disconnect cleanup run against any room other than `cR` leaves
`cR`'s binding untouched. -/
theorem stale_membership (rands : List (Nat → Nat)) (rooms : Registry) (h : Handler)
    (cR : String) (R0 : Room) (_hcr : h.currentRoom = some cR)
    (hR0 : lookupRoom rooms cR = some R0) (hmem : h.player ∈ R0.players) :
    (∀ msg res, msg.type = "create" →
      handleMessage rands rooms h msg = some res →
      lookupRoom res.rooms cR = some R0 ∧ h.player ∈ R0.players ∧
      ∃ c2, res.handler.currentRoom = some c2 ∧ c2 ≠ cR ∧
        lookupRoom res.rooms c2 =
          some { code := c2, players := [h.player], started := false }) ∧
    (∀ msg res room, msg.type = "join" →
      normalizeCode msg.room ≠ cR →
      lookupRoom rooms (normalizeCode msg.room) = some room →
      ¬ 2 ≤ room.players.length → room.started = false →
      handleMessage rands rooms h msg = some res →
      lookupRoom res.rooms cR = some R0 ∧
      res.handler.currentRoom = some (normalizeCode msg.room) ∧
      ∃ room1, lookupRoom res.rooms (normalizeCode msg.room) = some room1 ∧
        room1.players = room.players ++ [h.player]) ∧
    (∀ room2, room2.code ≠ cR →
      lookupRoom (handleDisconnect rooms room2 h.player).1 cR = lookupRoom rooms cR) := by
  refine ⟨?_, ?_, ?_⟩
  · intro msg res hty hres
    cases hcreate : createRoom rands rooms with
    | none =>
        unfold handleMessage at hres
        rw [hty] at hres
        simp [hcreate] at hres
    | some pr =>
        obtain ⟨room, r1⟩ := pr
        rw [handleMessage_create_eq rands rooms h msg room r1 hty hcreate] at hres
        simp only [Option.some.injEq] at hres
        subst hres
        obtain ⟨hlen5, hch, hply, hstf, hfresh, hr1⟩ := createRoom_spec hcreate
        have hne : room.code ≠ cR := by
          intro hx
          rw [hx, hR0] at hfresh
          exact Option.noConfusion hfresh
        have hneR : cR ≠ room.code := fun hx => hne hx.symm
        refine ⟨?_, hmem, room.code, rfl, hne, ?_⟩
        · show lookupRoom (insertRoom r1 room.code
            { room with players := room.players ++ [h.player] }) cR = some R0
          rw [lookupRoom_insert_ne _ _ hneR, hr1, lookupRoom_insert_ne _ _ hneR]
          exact hR0
        · show lookupRoom (insertRoom r1 room.code
            { room with players := room.players ++ [h.player] }) room.code = some _
          rw [lookupRoom_insert_self, hply, hstf]
          rfl
  · intro msg res room hty hne hlr hnfull hstf hres
    have hneR : cR ≠ normalizeCode msg.room := fun hx => hne hx.symm
    have hlen : room.players.length = 0 ∨ room.players.length = 1 := by omega
    rcases hlen with hlen | hlen
    · rw [join_success_wait rands rooms h msg room hty hlr hlen hstf] at hres
      simp only [Option.some.injEq] at hres
      subst hres
      refine ⟨?_, rfl, ⟨{ room with players := room.players ++ [h.player] }, ?_, rfl⟩⟩
      · show lookupRoom (insertRoom rooms (normalizeCode msg.room)
          { room with players := room.players ++ [h.player] }) cR = some R0
        rw [lookupRoom_insert_ne _ _ hneR]
        exact hR0
      · show lookupRoom (insertRoom rooms (normalizeCode msg.room)
          { room with players := room.players ++ [h.player] }) (normalizeCode msg.room) = some _
        exact lookupRoom_insert_self _ _ _
    · rw [join_success_two rands rooms h msg room hty hlr hlen hstf] at hres
      simp only [Option.some.injEq] at hres
      subst hres
      refine ⟨?_, rfl,
        ⟨{ room with players := room.players ++ [h.player], started := true }, ?_, rfl⟩⟩
      · show lookupRoom (insertRoom rooms (normalizeCode msg.room)
          { room with players := room.players ++ [h.player], started := true }) cR = some R0
        rw [lookupRoom_insert_ne _ _ hneR]
        exact hR0
      · show lookupRoom (insertRoom rooms (normalizeCode msg.room)
          { room with players := room.players ++ [h.player], started := true })
            (normalizeCode msg.room) = some _
        exact lookupRoom_insert_self _ _ _
  · intro room2 hne2
    have hneR : cR ≠ room2.code := fun hx => hne2 hx.symm
    rcases handleDisconnect_rooms rooms room2 h.player with hd | hd
    · rw [hd]
      exact lookupRoom_remove_ne _ hneR
    · rw [hd]
      exact lookupRoom_insert_ne _ _ hneR

/-- C9 witness: `pa`, already in the two-player room ROOMX, creates a new
room; ROOMX keeps the stale member, and the handler's pointer moves to
the fresh room containing only `pa`. -/
theorem stale_membership_witness :
    ∃ res, handleMessage [fun _ => 0] regX handlerA { type := "create" } = some res ∧
      lookupRoom res.rooms "ROOMX" = some roomX ∧ pa ∈ roomX.players ∧
      ∃ c2, res.handler.currentRoom = some c2 ∧ c2 ≠ "ROOMX" ∧
        lookupRoom res.rooms c2 =
          some { code := c2, players := [pa], started := false } := by
  refine ⟨_, rfl, ?_⟩
  exact (stale_membership [fun _ => 0] regX handlerA "ROOMX" roomX rfl (by decide)
    (by decide)).1 { type := "create" } _ rfl rfl

end Royale
